import Mathlib

/-!
Shallow embedding of the resource-engine core of this repository
(radix-engine, scrypto).  Pure data and the functions the claims touch are
translated from the Rust sources under src/; parts of the engine whose
definitions are not under src/ (only their callers are) are modelled from the
specification and are marked as such in their doc comments.

Conventions:
* `Decimal` is the signed 128-bit subunit integer of scrypto decimals,
  modelled as `Int`; Rust `%` on `i128` is truncated remainder (`Int.tmod`).
* `BTreeSet<NonFungibleId>` is modelled as `Finset Nat`; its iteration order
  is ascending, i.e. `Finset.sort (· ≤ ·)`.
* `HashMap` collections keyed by ids are modelled as association lists.
* Rust functions that can panic (assert failures, unwraps, explicit panics)
  return `RunResult`, whose `panicked` constructor marks aborted executions;
  plain `Result` functions return `Except`.
-/

namespace RadixScrypto

/-- Outcome of running a Rust function that may abort: `ok` and `err` mirror
Rust `Result`, while `panicked` marks executions that hit an assert, an
unwrap failure or an explicit panic. -/
inductive RunResult (ε α : Type) where
  | ok (value : α)
  | err (error : ε)
  | panicked
  deriving DecidableEq, Repr

/-- Modelled from the spec: amounts are fixed-point numbers with 18
fractional digits stored as 128-bit signed integers (the scrypto `Decimal`
newtype over `i128` is not under src/); we model the raw subunit integer. -/
abbrev Decimal := Int

/-- Mirrors scrypto `ResourceType` (declared outside src/): fungible with a
divisibility, or non-fungible. -/
inductive ResourceType where
  | fungible (divisibility : Nat)
  | nonFungible
  deriving DecidableEq, Repr

/-- Modelled from the spec: `take` on a non-fungible container interprets the
amount as a whole-number count, i.e. non-fungible resources behave as having
divisibility 0. -/
def ResourceType.divisibility : ResourceType → Nat
  | .fungible d => d
  | .nonFungible => 0

/-- Mirrors scrypto `Amount` (declared outside src/): a fungible quantity or
a set of non-fungible ids. -/
inductive Amount where
  | fungible (amount : Decimal)
  | nonFungible (ids : Finset Nat)
  deriving DecidableEq

/-- Mirrors `ResourceContainerError` in src/radix-engine/src/model/resource.rs. -/
inductive ResourceContainerError where
  | ResourceAddressNotMatching
  | InvalidAmount (amount : Decimal) (divisibility : Nat)
  | InsufficientBalance
  | NonFungibleOperationNotAllowed
  deriving DecidableEq, Repr

/-- Mirrors the `ResourceContainer` enum in
src/radix-engine/src/model/resource.rs.  Lock tables are association lists
(`BTreeMap Decimal usize`, `HashMap NonFungibleId usize`). -/
inductive ResourceContainer where
  | fungible (resource_def_id : Nat) (divisibility : Nat)
      (locked_amounts : List (Decimal × Nat)) (liquid_amount : Decimal)
  | nonFungible (resource_def_id : Nat) (locked_ids : List (Nat × Nat))
      (liquid_ids : Finset Nat)
  deriving DecidableEq

/-- Mirrors `ResourceContainer::resource_def_id`. -/
def ResourceContainer.resource_def_id : ResourceContainer → Nat
  | .fungible rid _ _ _ => rid
  | .nonFungible rid _ _ => rid

/-- Mirrors `ResourceContainer::resource_type`. -/
def ResourceContainer.resource_type : ResourceContainer → ResourceType
  | .fungible _ d _ _ => .fungible d
  | .nonFungible _ _ _ => .nonFungible

/-- Mirrors `ResourceContainer::liquid_amount`. -/
def ResourceContainer.liquid_amount : ResourceContainer → Amount
  | .fungible _ _ _ liquid => .fungible liquid
  | .nonFungible _ _ ids => .nonFungible ids

/-- Mirrors `ResourceContainer::is_locked`. -/
def ResourceContainer.is_locked : ResourceContainer → Bool
  | .fungible _ _ locked _ => ¬ locked.isEmpty
  | .nonFungible _ locked _ => ¬ locked.isEmpty

/-- Mirrors `ResourceContainer::new_fungible`. -/
def ResourceContainer.new_fungible (rid d : Nat) (amount : Decimal) :
    ResourceContainer :=
  .fungible rid d [] amount

/-- Mirrors `ResourceContainer::new_non_fungible`. -/
def ResourceContainer.new_non_fungible (rid : Nat) (ids : Finset Nat) :
    ResourceContainer :=
  .nonFungible rid [] ids

/-- Mirrors `ResourceContainer::new_empty`. -/
def ResourceContainer.new_empty (rid : Nat) (ty : ResourceType) :
    ResourceContainer :=
  match ty with
  | .fungible d => ResourceContainer.new_fungible rid d 0
  | .nonFungible => ResourceContainer.new_non_fungible rid ∅

/-- Mirrors `ResourceContainer::check_amount`: the error fires when the
amount is NOT negative and its subunit value is not divisible by
`10^(18 - divisibility)`.  Rust `%` on `i128` is `Int.tmod`. -/
def ResourceContainer.check_amount (amount : Decimal) (divisibility : Nat) :
    Except ResourceContainerError Unit :=
  if ¬ amount < 0 ∧ Int.tmod amount (10 ^ (18 - divisibility)) ≠ 0 then
    .error (.InvalidAmount amount divisibility)
  else
    .ok ()

/-- Largest value of Rust `usize` on the 64-bit targets the engine runs on. -/
def usizeMax : Nat :=
  2 ^ 64 - 1

/-- Models `quantity.to_string().parse::<usize>()` in the non-fungible branch
of `take`: the decimal renders as a plain integer string, and so parses,
exactly when it is a non-negative whole number of tokens whose count fits in
`usize`; otherwise (negative, fractional, or a count above `usize::MAX`,
which the i128 subunits can still represent) the `unwrap` panics (`none`). -/
def parseWholeCount (q : Decimal) : Option Nat :=
  if 0 ≤ q ∧ Int.tmod q (10 ^ 18) = 0 ∧ q / 10 ^ 18 ≤ (usizeMax : Int) then
    some (q / 10 ^ 18).toNat
  else none

/-- Mirrors `ResourceContainer::take`.  The updated source container is
returned together with the freshly created one.  In the non-fungible branch
the set iterates in ascending order, so the collected prefix is
`(liquid_ids.sort (· ≤ ·)).take n`, and each collected id is then removed
from the liquid set one by one. -/
def ResourceContainer.take (c : ResourceContainer) (quantity : Decimal) :
    RunResult ResourceContainerError (ResourceContainer × ResourceContainer) :=
  match ResourceContainer.check_amount quantity c.resource_type.divisibility with
  | .error e => .err e
  | .ok _ =>
    match c with
    | .fungible rid d locked liquid =>
      if liquid < quantity then
        .err .InsufficientBalance
      else
        .ok (.fungible rid d locked (liquid - quantity),
          ResourceContainer.new_fungible rid d quantity)
    | .nonFungible rid locked ids =>
      match parseWholeCount quantity with
      | none => .panicked
      | some n =>
        let taken := (ids.sort (· ≤ ·)).take n
        .ok (.nonFungible rid locked (taken.foldl Finset.erase ids),
          ResourceContainer.new_non_fungible rid taken.toFinset)

/-- Mirrors `ResourceContainer::put`: address check first, then the
`assert` that the incoming container is not locked (a violation panics),
then the liquid pools are merged; a fungible/non-fungible mismatch hits the
explicit panic in the catch-all arm. -/
def ResourceContainer.put (self other : ResourceContainer) :
    RunResult ResourceContainerError ResourceContainer :=
  if self.resource_def_id ≠ other.resource_def_id then
    .err .ResourceAddressNotMatching
  else if other.is_locked then
    .panicked
  else
    match self, other.liquid_amount with
    | .fungible rid d locked liquid, .fungible a =>
      .ok (.fungible rid d locked (liquid + a))
    | .nonFungible rid locked ids, .nonFungible otherIds =>
      .ok (.nonFungible rid locked (ids ∪ otherIds))
    | _, _ => .panicked

/-- Mirrors `ResourceContainerId` in src/radix-engine/src/model/resource.rs. -/
inductive ResourceContainerId where
  | bucket (bucket_id : Nat)
  | vault (vault_id : Nat)
  | worktop (depth : Nat) (resource_def_id : Nat)
  deriving DecidableEq

/-- Mirrors the `Proof` struct in src/radix-engine/src/model/resource.rs.
The `Rc<ResourceContainer>` references inside `amounts` are not tracked;
only the recorded sub-amounts are kept. -/
structure Proof where
  resource_def_id : Nat
  resource_type : ResourceType
  restricted : Bool
  total_amount : Amount
  amounts : List (ResourceContainerId × Amount)
  deriving DecidableEq

/-- Mirrors `Proof::is_restricted`. -/
def Proof.is_restricted (p : Proof) : Bool :=
  p.restricted

/-- Mirrors `Proof::change_to_restricted` (declared outside src/; its caller
in src/radix-engine/src/engine/process.rs marks a proof moved as a call
argument): sets the restricted flag. -/
def Proof.change_to_restricted (p : Proof) : Proof :=
  { p with restricted := true }

/-- Mirrors `Proof::change_to_unrestricted` (declared outside src/; per its
name and the FIXME at its call site in
src/radix-engine/src/model/auth_zone.rs): clears the restricted flag. -/
def Proof.change_to_unrestricted (p : Proof) : Proof :=
  { p with restricted := false }

/-- Mirrors `AuthZoneError` in src/radix-engine/src/model/auth_zone.rs. -/
inductive AuthZoneError where
  | EmptyAuthZone
  | ProofError
  | CouldNotCreateProof
  | InvalidRequestData
  | CouldNotGetProof
  | CouldNotGetResource
  | NoMethodSpecified
  deriving DecidableEq, Repr

/-- Mirrors the `AuthZone` struct in src/radix-engine/src/model/auth_zone.rs. -/
structure AuthZone where
  proofs : List Proof
  deriving DecidableEq

/-- Mirrors `AuthZone::push`. -/
def AuthZone.push (z : AuthZone) (proof : Proof) : AuthZone :=
  ⟨z.proofs ++ [proof]⟩

/-- Mirrors the `AuthZoneMethod::Push` arm of `AuthZone::main` in
src/radix-engine/src/model/auth_zone.rs, after `system_api.take_proof` has
already yielded the proof: the proof is made unrestricted and pushed, and
the arm returns success.  There is no failure path for restricted proofs in
this arm. -/
def AuthZone.main_push (z : AuthZone) (proof : Proof) :
    AuthZone × Except AuthZoneError Unit :=
  (z.push proof.change_to_unrestricted, .ok ())

/-- Mirrors `RadixEngineScryptoRuntime` metering state in
src/radix-engine/src/engine/runtime.rs (`u32` counters modelled as `Nat`). -/
structure ScryptoRuntimeState where
  tbd_limit : Nat
  tbd_balance : Nat
  deriving DecidableEq, Repr

/-- Mirrors `RadixEngineScryptoRuntime::tbd_used`. -/
def ScryptoRuntimeState.tbd_used (rt : ScryptoRuntimeState) : Nat :=
  rt.tbd_limit - rt.tbd_balance

/-- Mirrors `InvokeError` in src/radix-engine/src/wasm/errors.rs (the
`InvalidScryptoValue` and `RuntimeError` payloads are elided). -/
inductive InvokeError where
  | MemoryAllocError
  | MemoryAccessError
  | InvalidScryptoValue
  | WasmError (msg : String)
  | RuntimeErrorWrapped
  | FunctionNotFound
  | InvalidCallData
  | MissingReturnData
  | InvalidReturnData
  | OutOfTbd (limit : Nat) (balance : Nat) (required : Nat)
  deriving DecidableEq, Repr

/-- Mirrors `RadixEngineScryptoRuntime::use_tbd`: a sufficient balance is
decremented; an insufficient one is first zeroed, and the error is then
built from the zeroed state. -/
def ScryptoRuntimeState.use_tbd (rt : ScryptoRuntimeState) (tbd : Nat) :
    ScryptoRuntimeState × Except InvokeError Unit :=
  if tbd ≤ rt.tbd_balance then
    ({ rt with tbd_balance := rt.tbd_balance - tbd }, .ok ())
  else
    let zeroed : ScryptoRuntimeState := { rt with tbd_balance := 0 }
    (zeroed, .error (.OutOfTbd zeroed.tbd_limit zeroed.tbd_balance tbd))

/-- Mirrors the id harvest of a decoded `ScryptoValue` (the scrypto value
walker is outside src/): the bucket, proof, vault and lazy-map ids found in
an encoded value, in encounter order and possibly with duplicates. -/
structure Value where
  bucket_ids : List Nat
  proof_ids : List Nat
  vault_ids : List Nat
  lazy_map_ids : List Nat
  deriving DecidableEq

/-- Mirrors the `ComponentObjectRefs` struct (its literal appears in
src/radix-engine/src/engine/process.rs): the sets of vault and lazy-map ids
a frame may reference. -/
structure ComponentObjectRefs where
  vault_ids : Finset Nat
  lazy_map_ids : Finset Nat
  deriving DecidableEq

/-- Mirrors `ComponentObjectRefs::new`. -/
def ComponentObjectRefs.new : ComponentObjectRefs :=
  ⟨∅, ∅⟩

/-- Mirrors `ComponentObjectRefs::extend`. -/
def ComponentObjectRefs.extend (self other : ComponentObjectRefs) :
    ComponentObjectRefs :=
  ⟨self.vault_ids ∪ other.vault_ids, self.lazy_map_ids ∪ other.lazy_map_ids⟩

/-- Mirrors the engine `RuntimeError` (declared outside src/); the
constructors are the ones built by the code under src/ plus the removal
errors of `ComponentObjectRefs::remove`. -/
inductive RuntimeError where
  | BucketNotFound (bucket_id : Nat)
  | ProofNotFound (proof_id : Nat)
  | CantMoveLockedBucket
  | CantMoveRestrictedProof (proof_id : Nat)
  | ResourceCheckFailure
  | WorktopError (e : ResourceContainerError)
  | AuthorizationError (function : String) (detail : String)
  | VaultNotFound (vault_id : Nat)
  | LazyMapNotFound (lazy_map_id : Nat)
  | CyclicLazyMap (lazy_map_id : Nat)
  | IllegalSystemCall
  | BucketNotAllowed
  | ProofNotAllowed
  | VaultNotAllowed
  | LazyMapNotAllowed
  | DuplicateVault (vault_id : Nat)
  | DuplicateLazyMap (lazy_map_id : Nat)
  | VaultRemoved (vault_id : Nat)
  | LazyMapRemoved (lazy_map_id : Nat)
  deriving DecidableEq

/-- Mirrors `ComponentObjectRefs::remove` (declared outside src/; modelled
from the spec rule that object references may only be added, never removed):
the references of the previous value must all still be present and are
subtracted from the new reference set. -/
def ComponentObjectRefs.remove (self other : ComponentObjectRefs) :
    Except RuntimeError ComponentObjectRefs :=
  if ¬ other.vault_ids ⊆ self.vault_ids then
    match (other.vault_ids \ self.vault_ids).sort (· ≤ ·) with
    | [] => .error (.VaultRemoved 0)
    | id :: _ => .error (.VaultRemoved id)
  else if ¬ other.lazy_map_ids ⊆ self.lazy_map_ids then
    match (other.lazy_map_ids \ self.lazy_map_ids).sort (· ≤ ·) with
    | [] => .error (.LazyMapRemoved 0)
    | id :: _ => .error (.LazyMapRemoved id)
  else
    .ok ⟨self.vault_ids \ other.vault_ids, self.lazy_map_ids \ other.lazy_map_ids⟩

/-- Collects ids into a set, failing on the first duplicate; the loop body of
`Process::process_entry_data` in src/radix-engine/src/engine/process.rs. -/
def collectUnique (mkErr : Nat → RuntimeError) :
    List Nat → Finset Nat → Except RuntimeError (Finset Nat)
  | [], acc => .ok acc
  | id :: rest, acc =>
    if id ∈ acc then .error (mkErr id)
    else collectUnique mkErr rest (insert id acc)

/-- Mirrors `Process::process_entry_data`: entry data may carry no buckets
and no proofs, and its vault/lazy-map ids must be duplicate-free. -/
def process_entry_data (v : Value) : Except RuntimeError ComponentObjectRefs :=
  if ¬ v.bucket_ids.isEmpty then .error .BucketNotAllowed
  else if ¬ v.proof_ids.isEmpty then .error .ProofNotAllowed
  else
    match collectUnique RuntimeError.DuplicateLazyMap v.lazy_map_ids ∅ with
    | .error e => .error e
    | .ok lazyIds =>
      match collectUnique RuntimeError.DuplicateVault v.vault_ids ∅ with
      | .error e => .error e
      | .ok vaultIds => .ok ⟨vaultIds, lazyIds⟩

/-- Mirrors the engine `Vault` wrapper used by
src/radix-engine/src/engine/process.rs (`Vault::new(ResourceContainer)`);
per the spec a vault wraps one resource container. -/
structure Vault where
  container : ResourceContainer
  deriving DecidableEq

/-- Mirrors the `Bucket` struct in src/radix-engine/src/model/bucket.rs. -/
structure Bucket where
  container : ResourceContainer
  deriving DecidableEq

/-- Mirrors `Bucket::is_locked` (delegation to the container). -/
def Bucket.is_locked (b : Bucket) : Bool :=
  b.container.is_locked

/-- Mirrors `UnclaimedLazyMap` (declared outside src/; modelled from the
spec: a frame-created lazy map carries its direct entries plus the
descendent lazy maps and vaults it transitively owns).  Keys and entry
values are modelled by their id harvest (`Value`). -/
structure UnclaimedLazyMap where
  lazy_map : List (Nat × Value)
  descendent_lazy_maps : List (Nat × List (Nat × Value))
  descendent_vaults : List (Nat × Vault)
  deriving DecidableEq

/-- Mirrors `UnclaimedLazyMap::new`. -/
def UnclaimedLazyMap.new : UnclaimedLazyMap :=
  ⟨[], [], []⟩

/-- Mirrors `ComponentObjects` (declared outside src/; modelled from the
spec: the vaults and lazy maps created by this frame and not yet attached
to a component). -/
structure ComponentObjects where
  vaults : List (Nat × Vault)
  lazy_maps : List (Nat × UnclaimedLazyMap)
  deriving DecidableEq

/-- Mirrors `ComponentObjects::new`. -/
def ComponentObjects.new : ComponentObjects :=
  ⟨[], []⟩

/-- Looks up and removes an entry from an association list. -/
def assocRemove (key : Nat) : List (Nat × α) → Option (α × List (Nat × α))
  | [] => none
  | (k, v) :: rest =>
    if k = key then some (v, rest)
    else
      match assocRemove key rest with
      | none => none
      | some (found, rest2) => some (found, (k, v) :: rest2)

/-- Replaces the value stored under a key in an association list (appends
when absent). -/
def assocInsert (key : Nat) (value : α) : List (Nat × α) → List (Nat × α)
  | [] => [(key, value)]
  | (k, v) :: rest =>
    if k = key then (k, value) :: rest else (k, v) :: assocInsert key value rest

/-- Searches the descendent vaults of a list of owned lazy maps. -/
def findDescendentVault (vault_id : Nat) :
    List (Nat × UnclaimedLazyMap) → Option Vault
  | [] => none
  | e :: rest =>
    match e.2.descendent_vaults.lookup vault_id with
    | some v => some v
    | none => findDescendentVault vault_id rest

/-- Mirrors `ComponentObjects::get_vault_mut` (declared outside src/;
modelled from the spec: ownership is transitive, so descendent vaults of
owned lazy maps count as process-owned). -/
def ComponentObjects.get_vault (co : ComponentObjects) (vault_id : Nat) :
    Option Vault :=
  match findDescendentVault vault_id co.lazy_maps with
  | some v => some v
  | none => co.vaults.lookup vault_id

/-- Searches a list of owned lazy maps (roots and their descendents) for a
map id, returning the root of the owning chain together with the value the
map stores under the key, if any. -/
def findLazyMapEntry (lazy_map_id key : Nat) :
    List (Nat × UnclaimedLazyMap) → Option (Nat × Option Value)
  | [] => none
  | e :: rest =>
    if e.1 = lazy_map_id then some (e.1, e.2.lazy_map.lookup key)
    else
      match e.2.descendent_lazy_maps.lookup lazy_map_id with
      | some m => some (e.1, m.lookup key)
      | none => findLazyMapEntry lazy_map_id key rest

/-- Mirrors `ComponentObjects::get_lazy_map_entry` (declared outside src/;
modelled from the spec): searches the owned lazy maps and their descendents
for the given map id. -/
def ComponentObjects.get_lazy_map_entry (co : ComponentObjects)
    (lazy_map_id key : Nat) : Option (Nat × Option Value) :=
  findLazyMapEntry lazy_map_id key co.lazy_maps

/-- Vault ids appearing as descendents of a list of owned lazy maps. -/
def descendentVaultIds : List (Nat × UnclaimedLazyMap) → Finset Nat
  | [] => ∅
  | e :: rest => (e.2.descendent_vaults.map Prod.fst).toFinset ∪ descendentVaultIds rest

/-- Lazy-map ids owned by a list of owned lazy maps: the roots themselves
plus their descendent maps. -/
def ownedLazyMapIdList : List (Nat × UnclaimedLazyMap) → Finset Nat
  | [] => ∅
  | e :: rest =>
    insert e.1 ((e.2.descendent_lazy_maps.map Prod.fst).toFinset ∪ ownedLazyMapIdList rest)

/-- All vault ids owned by this frame, directly or through an owned lazy
map. -/
def ComponentObjects.owned_vault_ids (co : ComponentObjects) : Finset Nat :=
  (co.vaults.map Prod.fst).toFinset ∪ descendentVaultIds co.lazy_maps

/-- All lazy-map ids owned by this frame, directly or through an owned lazy
map. -/
def ComponentObjects.owned_lazy_map_ids (co : ComponentObjects) : Finset Nat :=
  ownedLazyMapIdList co.lazy_maps

/-- Mirrors `ComponentObjects::take` (declared outside src/; modelled from
the spec: the owned objects named by the reference set are moved out;
referencing an id that is not owned fails). -/
def ComponentObjects.takeVaults (ids : List Nat) (vaults : List (Nat × Vault)) :
    Except RuntimeError (List (Nat × Vault) × List (Nat × Vault)) :=
  match ids with
  | [] => .ok ([], vaults)
  | id :: rest =>
    match assocRemove id vaults with
    | none => .error (.VaultNotFound id)
    | some (v, vaults2) =>
      match ComponentObjects.takeVaults rest vaults2 with
      | .error e => .error e
      | .ok (moved, remaining) => .ok ((id, v) :: moved, remaining)

/-- Companion of `ComponentObjects.takeVaults` for the owned lazy maps. -/
def ComponentObjects.takeLazyMaps (ids : List Nat)
    (maps : List (Nat × UnclaimedLazyMap)) :
    Except RuntimeError
      (List (Nat × UnclaimedLazyMap) × List (Nat × UnclaimedLazyMap)) :=
  match ids with
  | [] => .ok ([], maps)
  | id :: rest =>
    match assocRemove id maps with
    | none => .error (.LazyMapNotFound id)
    | some (m, maps2) =>
      match ComponentObjects.takeLazyMaps rest maps2 with
      | .error e => .error e
      | .ok (moved, remaining) => .ok ((id, m) :: moved, remaining)

/-- Mirrors `ComponentObjects::take`: moves the referenced owned objects
out, returning them next to the shrunken owned state. -/
def ComponentObjects.take (co : ComponentObjects) (refs : ComponentObjectRefs) :
    Except RuntimeError (ComponentObjects × ComponentObjects) :=
  match ComponentObjects.takeVaults (refs.vault_ids.sort (· ≤ ·)) co.vaults with
  | .error e => .error e
  | .ok (movedVaults, vaults2) =>
    match ComponentObjects.takeLazyMaps (refs.lazy_map_ids.sort (· ≤ ·)) co.lazy_maps with
    | .error e => .error e
    | .ok (movedMaps, maps2) =>
      .ok (⟨movedVaults, movedMaps⟩, ⟨vaults2, maps2⟩)

/-- Mirrors `ComponentObjects::insert_lazy_map_entry` (declared outside
src/; modelled from the spec): stores the value under the key of the named
owned map, whether it is a root or a descendent. -/
def ComponentObjects.insert_lazy_map_entry (co : ComponentObjects)
    (lazy_map_id key : Nat) (value : Value) : ComponentObjects :=
  ⟨co.vaults,
    co.lazy_maps.map (fun e =>
      if e.1 = lazy_map_id then
        (e.1, { e.2 with lazy_map := assocInsert key value e.2.lazy_map })
      else
        match e.2.descendent_lazy_maps.lookup lazy_map_id with
        | some m =>
          let updated := assocInsert lazy_map_id (assocInsert key value m)
            e.2.descendent_lazy_maps
          (e.1, { e.2 with descendent_lazy_maps := updated })
        | none => e)⟩

/-- Mirrors `ComponentObjects::insert_objects_into_map` (declared outside
src/; modelled from the spec): the moved objects become descendents of the
named root map, flattening the descendents they carry. -/
def ComponentObjects.insert_objects_into_map (co : ComponentObjects)
    (objs : ComponentObjects) (root : Nat) : ComponentObjects :=
  ⟨co.vaults,
    co.lazy_maps.map (fun e =>
      if e.1 = root then
        (e.1,
          { e.2 with
            descendent_vaults :=
              (objs.lazy_maps.foldl (fun acc m => acc ++ m.2.descendent_vaults)
                (e.2.descendent_vaults ++ objs.vaults)),
            descendent_lazy_maps :=
              objs.lazy_maps.foldl
                (fun acc m => acc ++ [(m.1, m.2.lazy_map)] ++ m.2.descendent_lazy_maps)
                e.2.descendent_lazy_maps })
      else e)⟩

/-- Mirrors the transaction `Track` (declared outside src/; modelled from
the spec: the buffered substate view).  Lookups the source unwraps are
modelled as total functions. -/
structure Track where
  vaults : Nat → Nat → Vault
  lazy_map_entries : Nat → Nat → Nat → Option Value

/-- Mirrors `Track::get_vault_mut` as used by `Process::get_local_vault`
(the source unwraps a missing vault, so the model is total). -/
def Track.get_vault (t : Track) (component_address vault_id : Nat) : Vault :=
  t.vaults component_address vault_id

/-- Mirrors `Track::get_lazy_map_entry`. -/
def Track.get_lazy_map_entry (t : Track) (component_address lazy_map_id key : Nat) :
    Option Value :=
  t.lazy_map_entries component_address lazy_map_id key

/-- Mirrors `Track::put_vault`. -/
def Track.put_vault (t : Track) (component_address vault_id : Nat) (v : Vault) :
    Track :=
  { t with vaults := fun a i =>
      if a = component_address ∧ i = vault_id then v else t.vaults a i }

/-- Mirrors `Track::put_lazy_map_entry`. -/
def Track.put_lazy_map_entry (t : Track) (component_address lazy_map_id key : Nat)
    (value : Value) : Track :=
  { t with lazy_map_entries := fun a l k =>
      if a = component_address ∧ l = lazy_map_id ∧ k = key then some value
      else t.lazy_map_entries a l k }

/-- Mirrors `Track::insert_objects_into_component` in
src/radix-engine/src/engine/process.rs. -/
def Track.insert_objects_into_component (t : Track) (objs : ComponentObjects)
    (component_address : Nat) : Track :=
  let t1 := objs.vaults.foldl
    (fun acc e => Track.put_vault acc component_address e.1 e.2) t
  objs.lazy_maps.foldl
    (fun acc e =>
      let withEntries := e.2.lazy_map.foldl
        (fun a kv => Track.put_lazy_map_entry a component_address e.1 kv.1 kv.2) acc
      let withChildren := e.2.descendent_lazy_maps.foldl
        (fun a child => child.2.foldl
          (fun a2 kv => Track.put_lazy_map_entry a2 component_address child.1 kv.1 kv.2) a)
        withEntries
      e.2.descendent_vaults.foldl
        (fun a v => Track.put_vault a component_address v.1 v.2) withChildren)
    t1

/-- Mirrors the engine `Worktop` (declared outside src/; modelled from the
spec: the root frame keeps one resource container per resource address). -/
structure Worktop where
  containers : List (Nat × ResourceContainer)
  deriving DecidableEq

/-- Mirrors `Worktop::new`. -/
def Worktop.new : Worktop :=
  ⟨[]⟩

/-- Decides whether an amount is zero. -/
def Amount.isZero : Amount → Bool
  | .fungible a => a == 0
  | .nonFungible ids => ids == (∅ : Finset Nat)

/-- Mirrors `Worktop::is_empty` (modelled from the spec: no worktop entry
holds a non-zero amount). -/
def Worktop.is_empty (w : Worktop) : Bool :=
  w.containers.all (fun e => (e.2.liquid_amount).isZero)

/-- Mirrors `Worktop::put` (modelled from the spec: the bucket is merged
into the entry of its resource address, creating the entry when absent). -/
def Worktop.put (w : Worktop) (b : Bucket) :
    RunResult ResourceContainerError Worktop :=
  let rid := b.container.resource_def_id
  match w.containers.lookup rid with
  | none => .ok ⟨w.containers ++ [(rid, b.container)]⟩
  | some c =>
    match c.put b.container with
    | .ok merged => .ok ⟨assocInsert rid merged w.containers⟩
    | .err e => .err e
    | .panicked => .panicked

/-- Mirrors the `InterpreterState` enum in
src/radix-engine/src/engine/process.rs.  The raw component state bytes are
modelled by their id harvest. -/
inductive InterpreterState where
  | blueprint
  | component (component_address : Nat) (state : Value)
      (initial_loaded_object_refs : ComponentObjectRefs)
      (additional_object_refs : ComponentObjectRefs)
  deriving DecidableEq

/-- Mirrors the `WasmProcess` struct in
src/radix-engine/src/engine/process.rs (the interpreter handle is elided). -/
structure WasmProcess where
  depth : Nat
  interpreter_state : InterpreterState
  process_owned_objects : ComponentObjects
  deriving DecidableEq

/-- Mirrors `WasmProcess::check_resource`: true exactly when the frame owns
no dangling vault and no dangling lazy map. -/
def WasmProcess.check_resource (w : WasmProcess) : Bool :=
  w.process_owned_objects.vaults.isEmpty &&
    w.process_owned_objects.lazy_maps.isEmpty

/-- Mirrors the `Process` struct in src/radix-engine/src/engine/process.rs
(trace flag and id allocator elided). -/
structure Process where
  depth : Nat
  track : Track
  buckets : List (Nat × Bucket)
  proofs : List (Nat × Proof)
  wasm_process_state : Option WasmProcess
  worktop : Worktop
  auth_zone : List Proof
  caller_auth_zone : List Proof

/-- Mirrors `MoveMethod` in src/radix-engine/src/engine/process.rs. -/
inductive MoveMethod where
  | asReturn
  | asArgument
  deriving DecidableEq

/-- Mirrors `Process::send_buckets`: each id is removed from the frame's
buckets, failing when missing or locked. -/
def Process.send_buckets (p : Process) (ids : List Nat) :
    Except RuntimeError (List (Nat × Bucket) × Process) :=
  match ids with
  | [] => .ok ([], p)
  | id :: rest =>
    match assocRemove id p.buckets with
    | none => .error (.BucketNotFound id)
    | some (b, buckets2) =>
      if b.is_locked then .error .CantMoveLockedBucket
      else
        match Process.send_buckets { p with buckets := buckets2 } rest with
        | .error e => .error e
        | .ok (moved, p2) => .ok ((id, b) :: moved, p2)

/-- Mirrors `Process::send_proofs`: each id is removed from the frame's
proofs, failing when missing or restricted; a proof moved as an argument is
marked restricted. -/
def Process.send_proofs (p : Process) (ids : List Nat) (method : MoveMethod) :
    Except RuntimeError (List (Nat × Proof) × Process) :=
  match ids with
  | [] => .ok ([], p)
  | id :: rest =>
    match assocRemove id p.proofs with
    | none => .error (.ProofNotFound id)
    | some (pr, proofs2) =>
      if pr.is_restricted then .error (.CantMoveRestrictedProof id)
      else
        let moved := match method with
          | .asArgument => pr.change_to_restricted
          | .asReturn => pr
        match Process.send_proofs { p with proofs := proofs2 } rest method with
        | .error e => .error e
        | .ok (movedRest, p2) => .ok ((id, moved) :: movedRest, p2)

/-- Mirrors `Process::drop_all_proofs` (named proofs then the auth zone).
Dropping a proof only decrements lock counters on the containers it
references, which `check_resource` never consults, so the lock bookkeeping
is not tracked here. -/
def Process.drop_all_proofs (p : Process) : Process :=
  { p with proofs := [], auth_zone := [] }

/-- Mirrors `Process::receive_buckets`: at depth 0 the buckets are merged
into the worktop, deeper frames keep them as named buckets. -/
def Process.receive_buckets (p : Process) (moved : List (Nat × Bucket)) :
    RunResult RuntimeError Process :=
  if p.depth = 0 then
    match moved with
    | [] => .ok p
    | (_, b) :: rest =>
      match p.worktop.put b with
      | .err e => .err (.WorktopError e)
      | .panicked => .panicked
      | .ok w2 => Process.receive_buckets { p with worktop := w2 } rest
  else
    .ok { p with buckets := p.buckets ++ moved }

/-- Mirrors `Process::receive_proofs`: at depth 0 the proofs are pushed onto
the auth zone, deeper frames keep them as named proofs. -/
def Process.receive_proofs (p : Process) (moved : List (Nat × Proof)) : Process :=
  if p.depth = 0 then
    { p with auth_zone := p.auth_zone ++ moved.map (fun e => e.2) }
  else
    { p with proofs := p.proofs ++ moved }

/-- Mirrors `Process::check_resource` in
src/radix-engine/src/engine/process.rs: the check fails with
`ResourceCheckFailure` when the frame still holds any bucket, its worktop is
not empty, or its wasm state owns a dangling vault or lazy map. -/
def Process.check_resource (p : Process) : Except RuntimeError Unit :=
  if p.buckets.isEmpty && p.worktop.is_empty &&
      (match p.wasm_process_state with
       | none => true
       | some w => w.check_resource) then
    .ok ()
  else
    .error .ResourceCheckFailure

/-- Mirrors the return path of `Process::internal_call` (after the child's
`run` has produced `result`): harvest the returned buckets and proofs from
the child, drop the child's remaining proofs, run the child's resource-leak
check, and only then receive the moved resources into the caller. -/
def Process.invoke_return_phase (parent child : Process) (result : Value) :
    RunResult RuntimeError Process :=
  match child.send_buckets result.bucket_ids with
  | .error e => .err e
  | .ok (movingBuckets, child1) =>
    match child1.send_proofs result.proof_ids .asReturn with
    | .error e => .err e
    | .ok (movingProofs, child2) =>
      let child3 := child2.drop_all_proofs
      match child3.check_resource with
      | .error e => .err e
      | .ok _ =>
        match parent.receive_buckets movingBuckets with
        | .err e => .err e
        | .panicked => .panicked
        | .ok parent1 => .ok (parent1.receive_proofs movingProofs)

/-- Mirrors `Process::push_to_auth_zone` in
src/radix-engine/src/engine/process.rs: the named proof is removed and
pushed onto the frame's auth zone, failing on a restricted proof. -/
def Process.push_to_auth_zone (p : Process) (proof_id : Nat) :
    Except RuntimeError Process :=
  match assocRemove proof_id p.proofs with
  | none => .error (.ProofNotFound proof_id)
  | some (pr, proofs2) =>
    if pr.is_restricted then .error (.CantMoveRestrictedProof proof_id)
    else .ok { p with proofs := proofs2, auth_zone := p.auth_zone ++ [pr] }

/-- Mirrors `Process::get_local_vault`: process-owned vaults are found
directly; otherwise a component frame may reach vaults listed in its initial
or additional object references, and everything else is `VaultNotFound`. -/
def Process.get_local_vault (p : Process) (vault_id : Nat) :
    Except RuntimeError Vault :=
  match p.wasm_process_state with
  | none => .error .IllegalSystemCall
  | some w =>
    match w.process_owned_objects.get_vault vault_id with
    | some v => .ok v
    | none =>
      match w.interpreter_state with
      | .component addr _ initialRefs additionalRefs =>
        if vault_id ∉ initialRefs.vault_ids ∧ vault_id ∉ additionalRefs.vault_ids then
          .error (.VaultNotFound vault_id)
        else
          .ok (p.track.get_vault addr vault_id)
      | .blueprint => .error (.VaultNotFound vault_id)

/-- Mirrors `Process::handle_get_lazy_map_entry`: a hit in the owned maps is
returned directly; a component frame may otherwise read a map listed in its
reference sets from the track, extending the additional references with the
ids harvested from the fetched value (whose stored data the source unwraps);
everything else is `LazyMapNotFound`. -/
def Process.handle_get_lazy_map_entry (p : Process) (lazy_map_id key : Nat) :
    RunResult RuntimeError (Process × Option Value) :=
  match p.wasm_process_state with
  | none => .err .IllegalSystemCall
  | some w =>
    match w.process_owned_objects.get_lazy_map_entry lazy_map_id key with
    | some (_, value) => .ok (p, value)
    | none =>
      match w.interpreter_state with
      | .blueprint => .err (.LazyMapNotFound lazy_map_id)
      | .component addr st initialRefs additionalRefs =>
        if lazy_map_id ∉ initialRefs.lazy_map_ids ∧
            lazy_map_id ∉ additionalRefs.lazy_map_ids then
          .err (.LazyMapNotFound lazy_map_id)
        else
          match p.track.get_lazy_map_entry addr lazy_map_id key with
          | none => .ok (p, none)
          | some v =>
            match process_entry_data v with
            | .error _ => .panicked
            | .ok refs =>
              let st2 := InterpreterState.component addr st initialRefs
                (additionalRefs.extend refs)
              let w2 := { w with interpreter_state := st2 }
              .ok ({ p with wasm_process_state := some w2 }, some v)

/-- Mirrors `LazyMapState` in src/radix-engine/src/engine/process.rs. -/
inductive LazyMapState where
  | uncommitted (root : Nat)
  | committed (component_address : Nat)
  deriving DecidableEq

/-- References harvested from the previous entry value inside
`Process::handle_put_lazy_map_entry`: an absent value contributes the empty
reference set, and the source unwraps the parse of a present one. -/
def old_entry_refs : Option Value → RunResult RuntimeError ComponentObjectRefs
  | none => .ok ComponentObjectRefs.new
  | some old =>
    match process_entry_data old with
    | .error _ => .panicked
    | .ok r => .ok r

/-- Mirrors `Process::handle_put_lazy_map_entry`: locate the map (owned
chain or committed component map), parse the new and old entry values,
subtract the already-referenced objects, reject a new reference to the root
of an uncommitted chain with `CyclicLazyMap`, then move the newly referenced
owned objects and store the entry. -/
def Process.handle_put_lazy_map_entry (p : Process) (lazy_map_id key : Nat)
    (value : Value) : RunResult RuntimeError Process :=
  match p.wasm_process_state with
  | none => .err .IllegalSystemCall
  | some w =>
    let located : RunResult RuntimeError (Option Value × LazyMapState) :=
      match w.process_owned_objects.get_lazy_map_entry lazy_map_id key with
      | some (root, oldValue) => .ok (oldValue, .uncommitted root)
      | none =>
        match w.interpreter_state with
        | .blueprint => .err (.LazyMapNotFound lazy_map_id)
        | .component addr _ initialRefs additionalRefs =>
          if lazy_map_id ∉ initialRefs.lazy_map_ids ∧
              lazy_map_id ∉ additionalRefs.lazy_map_ids then
            .err (.LazyMapNotFound lazy_map_id)
          else
            .ok (p.track.get_lazy_map_entry addr lazy_map_id key, .committed addr)
    match located with
    | .err e => .err e
    | .panicked => .panicked
    | .ok (oldValue, lazyMapState) =>
      match process_entry_data value with
      | .error e => .err e
      | .ok newRefs =>
        match old_entry_refs oldValue with
        | .err e => .err e
        | .panicked => .panicked
        | .ok oldRefsOk =>
          match newRefs.remove oldRefsOk with
          | .error e => .err e
          | .ok remaining =>
            match lazyMapState with
            | .uncommitted root =>
              if root ∈ remaining.lazy_map_ids then
                .err (.CyclicLazyMap root)
              else
                match w.process_owned_objects.take remaining with
                | .error e => .err e
                | .ok (newObjects, owned2) =>
                  let owned3 := (owned2.insert_lazy_map_entry lazy_map_id key
                    value).insert_objects_into_map newObjects root
                  let w2 := { w with process_owned_objects := owned3 }
                  .ok { p with wasm_process_state := some w2 }
            | .committed addr =>
              match w.process_owned_objects.take remaining with
              | .error e => .err e
              | .ok (newObjects, owned2) =>
                let track2 := (p.track.put_lazy_map_entry addr lazy_map_id key
                  value).insert_objects_into_component newObjects addr
                let w2 := { w with process_owned_objects := owned2 }
                .ok { p with track := track2, wasm_process_state := some w2 }

/-- Mirrors `MethodAuthorizationError` (declared outside src/). -/
inductive MethodAuthorizationError where
  | NotAuthorized
  deriving DecidableEq

/-- Mirrors `MethodAuthorization` (declared outside src/; modelled from the
spec: the resolved authorization predicate evaluated against a proof
vector).  `public`, built by `Process::internal_call` for blueprint calls,
always passes; `rule` is an abstract predicate. -/
inductive MethodAuthorization where
  | public
  | rule (pred : List (List Proof) → Bool)

/-- Mirrors `MethodAuthorization::check`. -/
def MethodAuthorization.check (ma : MethodAuthorization)
    (proofsVector : List (List Proof)) : Except MethodAuthorizationError Unit :=
  match ma with
  | .public => .ok ()
  | .rule pred => if pred proofsVector then .ok () else .error .NotAuthorized

/-- Mirrors `SNodeState` in src/radix-engine/src/engine/process.rs
(payloads reduced to what the authorization step inspects). -/
inductive SNodeState where
  | scrypto (package_address : Nat) (blueprint_name : String)
      (component_address : Option Nat)
  | resource (resource_address : Nat)
  | bucket (bucket : Bucket)
  | vault (vault_id : Nat)

/-- Renders a `MethodAuthorizationError` into the detail string carried by
`RuntimeError.AuthorizationError`. -/
def MethodAuthorizationError.describe : MethodAuthorizationError → String
  | .NotAuthorized => "NotAuthorized"

/-- Maps a method-authorization result onto the invocation result, wrapping
a failure into `AuthorizationError` with the invoked function name. -/
def liftAuthResult (function : String) :
    Except MethodAuthorizationError Unit → Except RuntimeError Unit
  | .ok _ => .ok ()
  | .error e => .error (.AuthorizationError function e.describe)

/-- Mirrors the authorization step of `Process::internal_call`: unless
forced, the proof vector is `[caller_auth_zone, this_frame.auth_zone]` for a
Vault or Bucket target and `[this_frame.auth_zone]` for every other target,
and a failed check becomes `AuthorizationError` carrying the function
name. -/
def authorization_check (force : Bool) (snode : SNodeState)
    (method_auth : MethodAuthorization)
    (caller_auth_zone this_auth_zone : List Proof) (function : String) :
    Except RuntimeError Unit :=
  if force then .ok ()
  else
    let proofsVector :=
      match snode with
      | .vault _ => [caller_auth_zone, this_auth_zone]
      | .bucket _ => [caller_auth_zone, this_auth_zone]
      | _ => [this_auth_zone]
    liftAuthResult function (method_auth.check proofsVector)

/-- Vault ids reachable through the frame's loaded object references (empty
for a blueprint frame, which has none). -/
def InterpreterState.vault_refs : InterpreterState → Finset Nat
  | .blueprint => ∅
  | .component _ _ initialRefs additionalRefs =>
    initialRefs.vault_ids ∪ additionalRefs.vault_ids

/-- Lazy-map ids reachable through the frame's loaded object references. -/
def InterpreterState.lazy_map_refs : InterpreterState → Finset Nat
  | .blueprint => ∅
  | .component _ _ initialRefs additionalRefs =>
    initialRefs.lazy_map_ids ∪ additionalRefs.lazy_map_ids

/-- Concrete restricted proof, for evaluating the auth-zone push paths. -/
def sampleRestrictedProof : Proof :=
  { resource_def_id := 1, resource_type := .fungible 18, restricted := true,
    total_amount := .fungible 0, amounts := [] }

/-- Track with no lazy-map entries and zeroed vaults, for concrete states. -/
def sampleTrack : Track :=
  ⟨fun _ _ => ⟨.fungible 0 0 [] 0⟩, fun _ _ _ => none⟩

/-- Value harvest with no embedded ids. -/
def emptyValue : Value :=
  ⟨[], [], [], []⟩

/-- Concrete child frame still owning one (empty) bucket. -/
def sampleChild : Process :=
  { depth := 1, track := sampleTrack, buckets := [(5, ⟨.fungible 1 18 [] 0⟩)],
    proofs := [], wasm_process_state := none, worktop := ⟨[]⟩, auth_zone := [],
    caller_auth_zone := [] }

/-- Concrete root frame with no resources. -/
def sampleParent : Process :=
  { sampleChild with depth := 0, buckets := [] }

/-- Concrete wasm state of a component frame owning vault 31 and allowed to
reach vault 11 and lazy map 21. -/
def sampleWasm : WasmProcess :=
  { depth := 1,
    interpreter_state := .component 9 emptyValue ⟨{11}, {21}⟩ ⟨∅, ∅⟩,
    process_owned_objects := ⟨[(31, ⟨.fungible 0 0 [] 0⟩)], []⟩ }

/-- Concrete component frame around `sampleWasm`. -/
def sampleComponentProcess : Process :=
  { sampleChild with buckets := [], wasm_process_state := some sampleWasm }

/-- Concrete frame owning the fresh (uncommitted) lazy map 40. -/
def sampleMapProcess : Process :=
  { sampleChild with
    buckets := [],
    wasm_process_state := some
      { depth := 1, interpreter_state := .blueprint,
        process_owned_objects := ⟨[], [(40, UnclaimedLazyMap.new)]⟩ } }

/-! Theorems.  Claim theorems are marked with the claim id; the remaining
lemmas are shared helpers. -/

theorem foldl_erase_eq_sdiff (l : List Nat) (s : Finset Nat) :
    l.foldl Finset.erase s = s \ l.toFinset := by
  induction l generalizing s with
  | nil => simp
  | cons a t ih =>
    simp only [List.foldl_cons, List.toFinset_cons, ih]
    ext x
    simp only [Finset.mem_sdiff, Finset.mem_erase, Finset.mem_insert, not_or]
    tauto

theorem lookup_some_mem_keys {α : Type} {l : List (Nat × α)} {k : Nat} {v : α}
    (h : l.lookup k = some v) : k ∈ l.map Prod.fst := by
  induction l with
  | nil => simp [List.lookup] at h
  | cons e rest ih =>
    by_cases hk : k = e.1
    · simp [hk]
    · have hb : (k == e.1) = false := beq_eq_false_iff_ne.mpr hk
      simp only [List.lookup, hb] at h
      simp [ih h]

theorem lookup_eq_none_of_not_mem {α : Type} {l : List (Nat × α)} {k : Nat}
    (h : k ∉ l.map Prod.fst) : l.lookup k = none := by
  induction l with
  | nil => rfl
  | cons e rest ih =>
    simp only [List.map_cons, List.mem_cons, not_or] at h
    have hb : (k == e.1) = false := beq_eq_false_iff_ne.mpr h.1
    simp only [List.lookup, hb]
    exact ih h.2

/-- C10: `use_tbd(tbd)` decrements the balance by `tbd` exactly when the
remaining balance is at least `tbd`; otherwise the balance is zeroed before
the error is constructed, so the returned `OutOfTbd` carries balance 0 and
`tbd_used` afterwards equals the full limit. -/
theorem use_tbd_spec (limit balance tbd : Nat) :
    (tbd ≤ balance →
      ScryptoRuntimeState.use_tbd ⟨limit, balance⟩ tbd =
        (⟨limit, balance - tbd⟩, .ok ())) ∧
    (balance < tbd →
      ScryptoRuntimeState.use_tbd ⟨limit, balance⟩ tbd =
        (⟨limit, 0⟩, .error (.OutOfTbd limit 0 tbd)) ∧
      ScryptoRuntimeState.tbd_used ⟨limit, 0⟩ = limit) := by
  constructor
  · intro h
    simp [ScryptoRuntimeState.use_tbd, h]
  · intro h
    have h2 : ¬ tbd ≤ balance := Nat.not_le.mpr h
    simp [ScryptoRuntimeState.use_tbd, ScryptoRuntimeState.tbd_used, h2]

theorem use_tbd_spec_witness :
    ScryptoRuntimeState.use_tbd ⟨10, 3⟩ 5 =
      (⟨10, 0⟩, .error (.OutOfTbd 10 0 5)) ∧
    ScryptoRuntimeState.tbd_used ⟨10, 0⟩ = 10 :=
  (use_tbd_spec 10 3 5).2 (by decide)

/-- C2: evaluation of the `AuthZoneMethod::Push` arm of `AuthZone::main` at
a restricted proof.  Contrary to the claim, the arm does not fail with
`CantMoveRestrictedProof`: it clears the restricted flag (the FIXME hack in
src/radix-engine/src/model/auth_zone.rs) and pushes the proof, returning
success.  The older path `Process::push_to_auth_zone` does fail as the
claim states. -/
theorem auth_zone_push_restricted_proof_succeeds :
    sampleRestrictedProof.is_restricted = true ∧
    AuthZone.main_push ⟨[]⟩ sampleRestrictedProof =
      (⟨[{ sampleRestrictedProof with restricted := false }]⟩, .ok ()) :=
  ⟨rfl, rfl⟩

/-- C3: with `force = false`, the authorization predicate is evaluated
against `[caller_auth_zone, this_frame.auth_zone]` exactly for Vault and
Bucket targets and against `[this_frame.auth_zone]` for every other target,
and a failed check is wrapped into `AuthorizationError` carrying the
invoked function name. -/
theorem authorization_proof_vector (ma : MethodAuthorization)
    (callerZone selfZone : List Proof) (f : String) :
    (∀ b, authorization_check false (.bucket b) ma callerZone selfZone f =
      liftAuthResult f (ma.check [callerZone, selfZone])) ∧
    (∀ vid, authorization_check false (.vault vid) ma callerZone selfZone f =
      liftAuthResult f (ma.check [callerZone, selfZone])) ∧
    (∀ pa bn c,
      authorization_check false (.scrypto pa bn c) ma callerZone selfZone f =
        liftAuthResult f (ma.check [selfZone])) ∧
    (∀ ra, authorization_check false (.resource ra) ma callerZone selfZone f =
      liftAuthResult f (ma.check [selfZone])) ∧
    (∀ e, liftAuthResult f (.error e) =
      .error (.AuthorizationError f e.describe)) :=
  ⟨fun _ => rfl, fun _ => rfl, fun _ _ _ => rfl, fun _ => rfl, fun _ => rfl⟩

/-- C4 counterexample: a negative amount that is not divisible by
`10^(18 - divisibility)` is NOT rejected with `InvalidAmount`, because
`check_amount` only fires on non-negative amounts; the take even succeeds
and increases the source balance. -/
theorem take_negative_amount_not_rejected :
    Int.tmod (-1) (10 ^ 18) ≠ 0 ∧
    (ResourceContainer.fungible 7 0 [] 0).take (-1) =
      .ok (.fungible 7 0 [] 1, .fungible 7 0 [] (-1)) := by
  exact ⟨by decide, rfl⟩

/-- C4 (amended): for a fungible container, `take(amount)` fails with
`InvalidAmount(amount, divisibility)` whenever the amount is NON-NEGATIVE
and not divisible by `10^(18 - divisibility)`; when the amount passes that
granularity check it fails with `InsufficientBalance` whenever the liquid
amount is less than the amount, and otherwise deducts the amount from the
liquid balance and returns a new container holding exactly the amount. -/
theorem take_fungible_characterization (rid d : Nat)
    (locked : List (Decimal × Nat)) (liquid q : Decimal) (hd : d ≤ 18) :
    (0 ≤ q → Int.tmod q (10 ^ (18 - d)) ≠ 0 →
      (ResourceContainer.fungible rid d locked liquid).take q =
        .err (.InvalidAmount q d)) ∧
    ((q < 0 ∨ Int.tmod q (10 ^ (18 - d)) = 0) → liquid < q →
      (ResourceContainer.fungible rid d locked liquid).take q =
        .err .InsufficientBalance) ∧
    ((q < 0 ∨ Int.tmod q (10 ^ (18 - d)) = 0) → ¬ liquid < q →
      (ResourceContainer.fungible rid d locked liquid).take q =
        .ok (.fungible rid d locked (liquid - q),
          ResourceContainer.new_fungible rid d q)) := by
  refine ⟨?_, ?_, ?_⟩
  · intro h0 hmod
    have hc : ¬ q < 0 ∧ Int.tmod q (10 ^ (18 - d)) ≠ 0 := ⟨Int.not_lt.mpr h0, hmod⟩
    simp only [ResourceContainer.take, ResourceContainer.resource_type,
      ResourceType.divisibility, ResourceContainer.check_amount, if_pos hc]
  · intro hok hlt
    have hc : ¬ (¬ q < 0 ∧ Int.tmod q (10 ^ (18 - d)) ≠ 0) := by
      rcases hok with h | h
      · exact fun hc => hc.1 h
      · exact fun hc => hc.2 h
    simp only [ResourceContainer.take, ResourceContainer.resource_type,
      ResourceType.divisibility, ResourceContainer.check_amount, if_neg hc,
      if_pos hlt]
  · intro hok hnlt
    have hc : ¬ (¬ q < 0 ∧ Int.tmod q (10 ^ (18 - d)) ≠ 0) := by
      rcases hok with h | h
      · exact fun hc => hc.1 h
      · exact fun hc => hc.2 h
    simp only [ResourceContainer.take, ResourceContainer.resource_type,
      ResourceType.divisibility, ResourceContainer.check_amount, if_neg hc,
      if_neg hnlt]

theorem take_fungible_characterization_witness :
    (ResourceContainer.fungible 1 18 [] 5).take 7 = .err .InsufficientBalance :=
  (take_fungible_characterization 1 18 [] 5 7 (by decide)).2.1
    (Or.inr (by decide)) (by decide)

theorem take_prefix_toFinset_subset (ids : Finset Nat) (n : Nat) :
    ((ids.sort (· ≤ ·)).take n).toFinset ⊆ ids := by
  intro x hx
  rw [List.mem_toFinset] at hx
  exact (Finset.mem_sort _).1 (List.take_subset _ _ hx)

/-- C7: whenever `take(amount)` succeeds on a container, putting the
resulting container back with `put` succeeds and restores the original
liquid amount of the source container. -/
theorem take_put_roundtrip (c c2 t : ResourceContainer) (q : Decimal)
    (h : c.take q = .ok (c2, t)) :
    ∃ c3, c2.put t = .ok c3 ∧ c3.liquid_amount = c.liquid_amount := by
  cases c with
  | fungible rid d locked liquid =>
    simp only [ResourceContainer.take] at h
    split at h
    · exact absurd h (by simp)
    · split at h
      · exact absurd h (by simp)
      · rw [RunResult.ok.injEq, Prod.mk.injEq] at h
        obtain ⟨hc2, ht⟩ := h
        subst hc2
        subst ht
        refine ⟨.fungible rid d locked (liquid - q + q), ?_, ?_⟩
        · simp [ResourceContainer.put, ResourceContainer.new_fungible,
            ResourceContainer.resource_def_id, ResourceContainer.is_locked,
            ResourceContainer.liquid_amount]
        · simp only [ResourceContainer.liquid_amount, Amount.fungible.injEq]
          ring
  | nonFungible rid locked ids =>
    simp only [ResourceContainer.take] at h
    split at h
    · exact absurd h (by simp)
    · rcases hp : parseWholeCount q with _ | n
      · rw [hp] at h
        exact absurd h (by simp)
      · rw [hp] at h
        simp only [RunResult.ok.injEq, Prod.mk.injEq] at h
        obtain ⟨hc2, ht⟩ := h
        subst hc2
        subst ht
        refine ⟨.nonFungible rid locked
          ((ids \ ((ids.sort (· ≤ ·)).take n).toFinset) ∪
            ((ids.sort (· ≤ ·)).take n).toFinset), ?_, ?_⟩
        · simp [ResourceContainer.put, ResourceContainer.new_non_fungible,
            ResourceContainer.resource_def_id, ResourceContainer.is_locked,
            ResourceContainer.liquid_amount, foldl_erase_eq_sdiff]
        · simp only [ResourceContainer.liquid_amount, Amount.nonFungible.injEq]
          exact Finset.sdiff_union_of_subset (take_prefix_toFinset_subset ids n)

theorem take_put_roundtrip_witness :
    ∃ c3, (ResourceContainer.fungible 1 18 [] 3).put
        (ResourceContainer.new_fungible 1 18 2) = .ok c3 ∧
      c3.liquid_amount = (ResourceContainer.fungible 1 18 [] 5).liquid_amount :=
  take_put_roundtrip (.fungible 1 18 [] 5) (.fungible 1 18 [] 3)
    (.new_fungible 1 18 2) 2 (by decide)

/-- C8 counterexample: two containers with the same resource address, the
incoming one unlocked, for which `put` does not succeed: a fungible target
and a non-fungible source hit the type-mismatch panic rather than merging. -/
theorem put_mixed_kind_panics :
    (ResourceContainer.fungible 3 18 [] 0).resource_def_id =
      (ResourceContainer.new_non_fungible 3 ∅).resource_def_id ∧
    (ResourceContainer.new_non_fungible 3 ∅).is_locked = false ∧
    (ResourceContainer.fungible 3 18 [] 0).put
      (ResourceContainer.new_non_fungible 3 ∅) = .panicked := by
  refine ⟨rfl, rfl, rfl⟩

/-- C8 (amended): `put(other)` fails with `ResourceAddressNotMatching`
exactly when the resource addresses differ; when the addresses match, the
incoming container is unlocked, and both containers are of the same
fungibility kind, the internal assertion does not fire and `put` succeeds,
adding the amounts for fungible containers and unioning the id sets for
non-fungible containers. -/
theorem put_characterization (a b : ResourceContainer) :
    (a.put b = .err .ResourceAddressNotMatching ↔
      a.resource_def_id ≠ b.resource_def_id) ∧
    (∀ rid d la qa d2 qb, a = .fungible rid d la qa → b = .fungible rid d2 [] qb →
      a.put b = .ok (.fungible rid d la (qa + qb))) ∧
    (∀ rid la ia ib, a = .nonFungible rid la ia → b = .nonFungible rid [] ib →
      a.put b = .ok (.nonFungible rid la (ia ∪ ib))) := by
  refine ⟨⟨?_, ?_⟩, ?_, ?_⟩
  · intro h
    by_contra hrr
    simp only [ResourceContainer.put, hrr, ne_eq, not_true_eq_false,
      if_false] at h
    split at h
    · exact absurd h (by simp)
    · split at h <;> exact absurd h (by simp)
  · intro hne
    simp [ResourceContainer.put, hne]
  · intro rid d la qa d2 qb ha hb
    subst ha
    subst hb
    simp [ResourceContainer.put, ResourceContainer.resource_def_id,
      ResourceContainer.is_locked, ResourceContainer.liquid_amount]
  · intro rid la ia ib ha hb
    subst ha
    subst hb
    simp [ResourceContainer.put, ResourceContainer.resource_def_id,
      ResourceContainer.is_locked, ResourceContainer.liquid_amount]

theorem put_characterization_witness :
    (ResourceContainer.fungible 2 18 [] 3).put (.fungible 2 18 [] 4) =
      .ok (.fungible 2 18 [] (3 + 4)) :=
  (put_characterization (.fungible 2 18 [] 3) (.fungible 2 18 [] 4)).2.1
    2 18 [] 3 18 4 rfl rfl

/-- C9 counterexample: a whole-number count above `usize::MAX` is
representable in the decimal subunits and passes the granularity check, but
the `parse::<usize>().unwrap()` on the rendered count panics, so `take`
aborts instead of removing `min(n, card liquid_ids)` ids as the claim
states. -/
theorem take_huge_count_panics :
    (ResourceContainer.nonFungible 1 [] ∅).take ((2 ^ 64 : Int) * 10 ^ 18) =
        .panicked ∧
    (ResourceContainer.nonFungible 1 [] ∅).take ((2 ^ 64 : Int) * 10 ^ 18) ≠
      .ok (.nonFungible 1 [] ∅, ResourceContainer.new_non_fungible 1 ∅) ∧
    usizeMax < 2 ^ 64 := by
  refine ⟨rfl, by decide, by decide⟩

/-- C9 (amended): on a non-fungible container, `take` of a whole-number
count `n` that fits in `usize` never fails with `InsufficientBalance`: it
removes the first `min(n, card liquid_ids)` ids in ascending order, and when
fewer than `n` ids are liquid it takes all of them and leaves the source
empty.  (A whole count above `usize::MAX` instead panics at the parse of the
count.) -/
theorem take_non_fungible_by_count (rid : Nat) (locked : List (Nat × Nat))
    (ids : Finset Nat) (n : Nat) (hn : n ≤ usizeMax) :
    (ResourceContainer.nonFungible rid locked ids).take ((n : Int) * 10 ^ 18) =
      .ok (.nonFungible rid locked
            (ids \ ((ids.sort (· ≤ ·)).take n).toFinset),
          ResourceContainer.new_non_fungible rid
            ((ids.sort (· ≤ ·)).take n).toFinset) ∧
    ((ids.sort (· ≤ ·)).take n).Sorted (· ≤ ·) ∧
    ((ids.sort (· ≤ ·)).take n).length = min n ids.card ∧
    ((ids.sort (· ≤ ·)).take n).toFinset ⊆ ids ∧
    (ids.card ≤ n →
      ((ids.sort (· ≤ ·)).take n).toFinset = ids ∧
      ids \ ((ids.sort (· ≤ ·)).take n).toFinset = ∅) := by
  have hE : ((10 : Int) ^ 18) ≠ 0 := by norm_num
  have hmod : Int.tmod ((n : Int) * 10 ^ 18) (10 ^ 18) = 0 :=
    Int.mul_tmod_left _ _
  have hnn : (0 : Int) ≤ (n : Int) * 10 ^ 18 :=
    mul_nonneg (Int.natCast_nonneg n) (by positivity)
  have hdiv : ((n : Int) * 10 ^ 18) / 10 ^ 18 = (n : Int) :=
    Int.mul_ediv_cancel _ hE
  have hbound : ((n : Int) * 10 ^ 18) / 10 ^ 18 ≤ (usizeMax : Int) := by
    rw [hdiv]
    exact_mod_cast hn
  have hparse : parseWholeCount ((n : Int) * 10 ^ 18) = some n := by
    simp only [parseWholeCount]
    rw [if_pos (And.intro hnn (And.intro hmod hbound)), hdiv,
      Int.toNat_natCast]
  have hca : ResourceContainer.check_amount ((n : Int) * 10 ^ 18)
      (ResourceContainer.nonFungible rid locked ids).resource_type.divisibility =
        .ok () := by
    simp only [ResourceContainer.resource_type, ResourceType.divisibility,
      ResourceContainer.check_amount]
    rw [if_neg]
    intro hc
    exact hc.2 (by simpa using hmod)
  refine ⟨?_, ?_, ?_, take_prefix_toFinset_subset ids n, ?_⟩
  · simp only [ResourceContainer.take, hca, hparse, foldl_erase_eq_sdiff]
  · exact List.Pairwise.sublist (List.take_sublist n _) (Finset.sort_sorted _ _)
  · rw [List.length_take, Finset.length_sort]
  · intro hcard
    have hlen : (ids.sort (· ≤ ·)).length ≤ n := by
      rw [Finset.length_sort]
      exact hcard
    rw [List.take_of_length_le hlen, Finset.sort_toFinset]
    exact ⟨rfl, Finset.sdiff_self ids⟩

theorem take_non_fungible_by_count_witness :
    ((({1, 2} : Finset Nat).sort (· ≤ ·)).take 3).toFinset =
      ({1, 2} : Finset Nat) ∧
    ({1, 2} : Finset Nat) \
        ((({1, 2} : Finset Nat).sort (· ≤ ·)).take 3).toFinset = ∅ :=
  (take_non_fungible_by_count 1 [] {1, 2} 3 (by decide)).2.2.2.2 (by decide)

theorem check_resource_rcf_iff (p : Process) :
    p.check_resource = .error .ResourceCheckFailure ↔
      (p.buckets ≠ [] ∨ p.worktop.is_empty = false ∨
        (∃ w, p.wasm_process_state = some w ∧
          (w.process_owned_objects.vaults ≠ [] ∨
            w.process_owned_objects.lazy_maps ≠ []))) := by
  by_cases hcond : (p.buckets.isEmpty && p.worktop.is_empty &&
      (match p.wasm_process_state with
       | none => true
       | some w => w.check_resource)) = true
  · unfold Process.check_resource
    rw [if_pos hcond]
    simp only [Bool.and_eq_true] at hcond
    obtain ⟨⟨hb, hwk⟩, hm⟩ := hcond
    constructor
    · intro hcontr
      exact Except.noConfusion hcontr
    · rintro (hc | hc | ⟨w, hw2, hc⟩)
      · exact absurd (List.isEmpty_iff.mp hb) hc
      · rw [hwk] at hc
        exact Bool.noConfusion hc
      · rw [hw2] at hm
        simp only [WasmProcess.check_resource, Bool.and_eq_true,
          List.isEmpty_iff] at hm
        rcases hc with hc | hc
        · exact (hc hm.1).elim
        · exact (hc hm.2).elim
  · unfold Process.check_resource
    rw [if_neg hcond]
    constructor
    · intro _
      by_contra hno
      push_neg at hno
      obtain ⟨h1, h2, h3⟩ := hno
      apply hcond
      simp only [Bool.and_eq_true]
      refine ⟨⟨List.isEmpty_iff.mpr h1, ?_⟩, ?_⟩
      · cases hwk : p.worktop.is_empty
        · exact absurd hwk h2
        · rfl
      · rcases hp : p.wasm_process_state with _ | w
        · rfl
        · have h4 := h3 w hp
          simp only [WasmProcess.check_resource, Bool.and_eq_true,
            List.isEmpty_iff]
          exact ⟨h4.1, h4.2⟩
    · intro _
      rfl

theorem receive_buckets_ne_rcf (l : List (Nat × Bucket)) (p : Process) :
    p.receive_buckets l ≠ .err .ResourceCheckFailure := by
  induction l generalizing p with
  | nil =>
    unfold Process.receive_buckets
    split
    · simp
    · simp
  | cons e rest ih =>
    obtain ⟨id, b⟩ := e
    unfold Process.receive_buckets
    split
    · cases hput : p.worktop.put b with
      | ok w2 =>
        simp only [hput]
        exact ih _
      | err er =>
        simp only [hput]
        simp
      | panicked =>
        simp only [hput]
        simp
    · simp

/-- C1: on return from a nested invocation, the caller harvests the
returned buckets and proofs, drops the child's remaining proofs, and then
runs the child's resource-leak check; the return phase fails with
`ResourceCheckFailure` if and only if the child still owns some bucket, its
worktop is non-empty, or it owns some vault or lazy map that was never
attached to a component. -/
theorem invoke_return_resource_check (parent child child1 child2 : Process)
    (result : Value) (mb : List (Nat × Bucket)) (mpf : List (Nat × Proof))
    (hb : child.send_buckets result.bucket_ids = .ok (mb, child1))
    (hp : child1.send_proofs result.proof_ids .asReturn = .ok (mpf, child2)) :
    Process.invoke_return_phase parent child result =
        .err .ResourceCheckFailure ↔
      (child2.buckets ≠ [] ∨ child2.worktop.is_empty = false ∨
        (∃ w, child2.wasm_process_state = some w ∧
          (w.process_owned_objects.vaults ≠ [] ∨
            w.process_owned_objects.lazy_maps ≠ []))) := by
  have hiff := check_resource_rcf_iff child2.drop_all_proofs
  have hdb : (child2.drop_all_proofs).buckets = child2.buckets := rfl
  have hdw : (child2.drop_all_proofs).worktop = child2.worktop := rfl
  have hdm : (child2.drop_all_proofs).wasm_process_state =
      child2.wasm_process_state := rfl
  rw [hdb, hdw, hdm] at hiff
  unfold Process.invoke_return_phase
  rw [hb]
  dsimp only
  rw [hp]
  dsimp only
  rcases hcr : (child2.drop_all_proofs).check_resource with e | val
  · have he : e = .ResourceCheckFailure := by
      unfold Process.check_resource at hcr
      split at hcr
      · exact Except.noConfusion hcr
      · rw [Except.error.injEq] at hcr
        exact hcr.symm
    subst he
    rw [hcr] at hiff
    dsimp only
    constructor
    · intro _
      exact hiff.mp rfl
    · intro _
      rfl
  · rw [hcr] at hiff
    dsimp only
    constructor
    · intro h
      rcases hr : parent.receive_buckets mb with p1 | e2 | _
      · rw [hr] at h
        dsimp only at h
        exact RunResult.noConfusion h
      · rw [hr] at h
        dsimp only at h
        rw [RunResult.err.injEq] at h
        rw [h] at hr
        exact absurd hr (receive_buckets_ne_rcf mb parent)
      · rw [hr] at h
        dsimp only at h
        exact RunResult.noConfusion h
    · intro hc
      exact Except.noConfusion (hiff.mpr hc)

theorem invoke_return_resource_check_witness :
    Process.invoke_return_phase sampleParent sampleChild emptyValue =
        .err .ResourceCheckFailure ↔
      (sampleChild.buckets ≠ [] ∨ sampleChild.worktop.is_empty = false ∨
        (∃ w, sampleChild.wasm_process_state = some w ∧
          (w.process_owned_objects.vaults ≠ [] ∨
            w.process_owned_objects.lazy_maps ≠ []))) :=
  invoke_return_resource_check sampleParent sampleChild sampleChild
    sampleChild emptyValue [] [] rfl rfl

theorem findDescendentVault_some_mem {l : List (Nat × UnclaimedLazyMap)}
    {vid : Nat} {v : Vault} (h : findDescendentVault vid l = some v) :
    vid ∈ descendentVaultIds l := by
  induction l with
  | nil => exact Option.noConfusion h
  | cons e rest ih =>
    unfold findDescendentVault at h
    unfold descendentVaultIds
    rcases hl : e.2.descendent_vaults.lookup vid with _ | v2
    · rw [hl] at h
      exact Finset.mem_union_right _ (ih h)
    · exact Finset.mem_union_left _
        (List.mem_toFinset.mpr (lookup_some_mem_keys hl))

theorem findDescendentVault_none {l : List (Nat × UnclaimedLazyMap)}
    {vid : Nat} (h : vid ∉ descendentVaultIds l) :
    findDescendentVault vid l = none := by
  induction l with
  | nil => rfl
  | cons e rest ih =>
    unfold descendentVaultIds at h
    simp only [Finset.mem_union, List.mem_toFinset, not_or] at h
    unfold findDescendentVault
    rw [lookup_eq_none_of_not_mem h.1]
    exact ih h.2

theorem get_vault_some_mem {co : ComponentObjects} {vid : Nat} {v : Vault}
    (h : co.get_vault vid = some v) : vid ∈ co.owned_vault_ids := by
  unfold ComponentObjects.get_vault at h
  unfold ComponentObjects.owned_vault_ids
  rcases hf : findDescendentVault vid co.lazy_maps with _ | v2
  · rw [hf] at h
    exact Finset.mem_union_left _
      (List.mem_toFinset.mpr (lookup_some_mem_keys h))
  · exact Finset.mem_union_right _ (findDescendentVault_some_mem hf)

theorem get_vault_none {co : ComponentObjects} {vid : Nat}
    (h : vid ∉ co.owned_vault_ids) : co.get_vault vid = none := by
  unfold ComponentObjects.owned_vault_ids at h
  simp only [Finset.mem_union, List.mem_toFinset, not_or] at h
  unfold ComponentObjects.get_vault
  rw [findDescendentVault_none h.2]
  exact lookup_eq_none_of_not_mem h.1

theorem findLazyMapEntry_some_mem {l : List (Nat × UnclaimedLazyMap)}
    {lid key : Nat} {r : Nat × Option Value}
    (h : findLazyMapEntry lid key l = some r) : lid ∈ ownedLazyMapIdList l := by
  induction l with
  | nil => exact Option.noConfusion h
  | cons e rest ih =>
    unfold findLazyMapEntry at h
    unfold ownedLazyMapIdList
    by_cases he : e.1 = lid
    · exact he ▸ Finset.mem_insert_self e.1 _
    · rw [if_neg he] at h
      rcases hl : e.2.descendent_lazy_maps.lookup lid with _ | m
      · rw [hl] at h
        exact Finset.mem_insert_of_mem (Finset.mem_union_right _ (ih h))
      · exact Finset.mem_insert_of_mem (Finset.mem_union_left _
          (List.mem_toFinset.mpr (lookup_some_mem_keys hl)))

theorem findLazyMapEntry_none {l : List (Nat × UnclaimedLazyMap)}
    {lid key : Nat} (h : lid ∉ ownedLazyMapIdList l) :
    findLazyMapEntry lid key l = none := by
  induction l with
  | nil => rfl
  | cons e rest ih =>
    unfold ownedLazyMapIdList at h
    simp only [Finset.mem_insert, Finset.mem_union, List.mem_toFinset,
      not_or] at h
    obtain ⟨h1, h2, h3⟩ := h
    unfold findLazyMapEntry
    rw [if_neg (fun hc => h1 hc.symm), lookup_eq_none_of_not_mem h2]
    exact ih h3

/-- C5: a host call that references a `VaultId` or a `LazyMapId` succeeds
only if that identifier is process-owned (directly or through an owned lazy
map), or listed in the frame's initial loaded object references or its
additional object references; an identifier in none of these sets makes the
call fail with `VaultNotFound` or `LazyMapNotFound` respectively. -/
theorem object_reference_guard (p : Process) (w : WasmProcess)
    (hw : p.wasm_process_state = some w) (vault_id lazy_map_id key : Nat) :
    ((∃ v, p.get_local_vault vault_id = .ok v) →
      vault_id ∈ w.process_owned_objects.owned_vault_ids ∪
        w.interpreter_state.vault_refs) ∧
    (vault_id ∉ w.process_owned_objects.owned_vault_ids ∪
        w.interpreter_state.vault_refs →
      p.get_local_vault vault_id = .error (.VaultNotFound vault_id)) ∧
    ((∃ p2 out, p.handle_get_lazy_map_entry lazy_map_id key = .ok (p2, out)) →
      lazy_map_id ∈ w.process_owned_objects.owned_lazy_map_ids ∪
        w.interpreter_state.lazy_map_refs) ∧
    (lazy_map_id ∉ w.process_owned_objects.owned_lazy_map_ids ∪
        w.interpreter_state.lazy_map_refs →
      p.handle_get_lazy_map_entry lazy_map_id key =
        .err (.LazyMapNotFound lazy_map_id)) := by
  refine ⟨?_, ?_, ?_, ?_⟩
  · rintro ⟨v, hv⟩
    unfold Process.get_local_vault at hv
    rw [hw] at hv
    dsimp only at hv
    rcases hg : w.process_owned_objects.get_vault vault_id with _ | v2
    · rw [hg] at hv
      rcases hs : w.interpreter_state with _ | ⟨addr, st, ir, ar⟩
      · rw [hs] at hv
        exact Except.noConfusion hv
      · rw [hs] at hv
        dsimp only at hv
        split at hv
        · exact Except.noConfusion hv
        · next hcnd =>
          rw [not_and_or, not_not, not_not] at hcnd
          apply Finset.mem_union_right
          simp only [InterpreterState.vault_refs]
          exact Finset.mem_union.mpr hcnd
    · rw [hg] at hv
      exact Finset.mem_union_left _ (get_vault_some_mem hg)
  · intro hnot
    rw [Finset.mem_union, not_or] at hnot
    unfold Process.get_local_vault
    rw [hw]
    dsimp only
    rw [get_vault_none hnot.1]
    rcases hs : w.interpreter_state with _ | ⟨addr, st, ir, ar⟩
    · rfl
    · have hnr := hnot.2
      rw [hs] at hnr
      unfold InterpreterState.vault_refs at hnr
      rw [Finset.mem_union, not_or] at hnr
      dsimp only
      rw [if_pos ⟨hnr.1, hnr.2⟩]
  · rintro ⟨p2, out, hv⟩
    unfold Process.handle_get_lazy_map_entry at hv
    rw [hw] at hv
    dsimp only at hv
    rcases hg : w.process_owned_objects.get_lazy_map_entry lazy_map_id key
      with _ | r
    · rw [hg] at hv
      rcases hs : w.interpreter_state with _ | ⟨addr, st, ir, ar⟩
      · rw [hs] at hv
        exact RunResult.noConfusion hv
      · rw [hs] at hv
        dsimp only at hv
        split at hv
        · exact RunResult.noConfusion hv
        · next hcnd =>
          rw [not_and_or, not_not, not_not] at hcnd
          apply Finset.mem_union_right
          simp only [InterpreterState.lazy_map_refs]
          exact Finset.mem_union.mpr hcnd
    · rw [hg] at hv
      exact Finset.mem_union_left _ (findLazyMapEntry_some_mem hg)
  · intro hnot
    rw [Finset.mem_union, not_or] at hnot
    unfold Process.handle_get_lazy_map_entry
    rw [hw]
    dsimp only
    rw [show w.process_owned_objects.get_lazy_map_entry lazy_map_id key = none
      from findLazyMapEntry_none hnot.1]
    rcases hs : w.interpreter_state with _ | ⟨addr, st, ir, ar⟩
    · rfl
    · have hnr := hnot.2
      rw [hs] at hnr
      unfold InterpreterState.lazy_map_refs at hnr
      rw [Finset.mem_union, not_or] at hnr
      dsimp only
      rw [if_pos ⟨hnr.1, hnr.2⟩]

theorem object_reference_guard_witness :
    ((∃ v, sampleComponentProcess.get_local_vault 42 = .ok v) →
      42 ∈ sampleWasm.process_owned_objects.owned_vault_ids ∪
        sampleWasm.interpreter_state.vault_refs) ∧
    (42 ∉ sampleWasm.process_owned_objects.owned_vault_ids ∪
        sampleWasm.interpreter_state.vault_refs →
      sampleComponentProcess.get_local_vault 42 = .error (.VaultNotFound 42)) ∧
    ((∃ p2 out,
        sampleComponentProcess.handle_get_lazy_map_entry 42 0 = .ok (p2, out)) →
      42 ∈ sampleWasm.process_owned_objects.owned_lazy_map_ids ∪
        sampleWasm.interpreter_state.lazy_map_refs) ∧
    (42 ∉ sampleWasm.process_owned_objects.owned_lazy_map_ids ∪
        sampleWasm.interpreter_state.lazy_map_refs →
      sampleComponentProcess.handle_get_lazy_map_entry 42 0 =
        .err (.LazyMapNotFound 42)) :=
  object_reference_guard sampleComponentProcess sampleWasm rfl 42 42 0

/-- C6: a put into an uncommitted (frame-owned) lazy map whose new entry
value references the root of that map's uncommitted chain fails with
`CyclicLazyMap(root)`; the handler returns the error before storing
anything, so no state is produced. -/
theorem put_uncommitted_cycle_rejected (p : Process) (w : WasmProcess)
    (lazy_map_id key root : Nat) (value : Value) (oldValue : Option Value)
    (newRefs oldRefs : ComponentObjectRefs)
    (hw : p.wasm_process_state = some w)
    (hloc : w.process_owned_objects.get_lazy_map_entry lazy_map_id key =
      some (root, oldValue))
    (hnew : process_entry_data value = .ok newRefs)
    (hold : old_entry_refs oldValue = .ok oldRefs)
    (hsubv : oldRefs.vault_ids ⊆ newRefs.vault_ids)
    (hsubl : oldRefs.lazy_map_ids ⊆ newRefs.lazy_map_ids)
    (hroot : root ∈ newRefs.lazy_map_ids)
    (hrootold : root ∉ oldRefs.lazy_map_ids) :
    p.handle_put_lazy_map_entry lazy_map_id key value =
      .err (.CyclicLazyMap root) := by
  unfold Process.handle_put_lazy_map_entry
  rw [hw]
  dsimp only
  rw [hloc]
  dsimp only
  rw [hnew]
  dsimp only
  rw [hold]
  dsimp only
  have hrem : newRefs.remove oldRefs =
      .ok ⟨newRefs.vault_ids \ oldRefs.vault_ids,
        newRefs.lazy_map_ids \ oldRefs.lazy_map_ids⟩ := by
    unfold ComponentObjectRefs.remove
    rw [if_neg (not_not_intro hsubv), if_neg (not_not_intro hsubl)]
  rw [hrem]
  dsimp only
  rw [if_pos (Finset.mem_sdiff.mpr ⟨hroot, hrootold⟩)]

theorem put_uncommitted_cycle_rejected_witness :
    Process.handle_put_lazy_map_entry sampleMapProcess 40 0 ⟨[], [], [], [40]⟩ =
      .err (.CyclicLazyMap 40) :=
  put_uncommitted_cycle_rejected sampleMapProcess
    { depth := 1, interpreter_state := .blueprint,
      process_owned_objects := ⟨[], [(40, UnclaimedLazyMap.new)]⟩ }
    40 0 40 ⟨[], [], [], [40]⟩ none ⟨∅, {40}⟩ ComponentObjectRefs.new
    rfl rfl rfl rfl (by decide) (by decide) (by decide) (by decide)

end RadixScrypto
